import Mathlib

/-!
Shallow embedding of src/xpoJson2rdf.py, the XPO JSON to RDF converter.

JSON values parsed by json.load are modelled by JValue; rdflib URIRefs,
BNodes, Literals and triples by Node, Obj, Triple.  The module-global
GRAPH, the bnode counter (the source draws a shortuuid; per the spec's
design note the generator is injectable and is modelled here as a
deterministic counter, the identity of a synthetic node being the pair
of its role tag and the counter value), the function-local loop
variables ldc_arg_name / ldc_arg_value that the ldc_types branch reads
after their loop has finished, and the printed diagnostics are threaded
through a state St.  Python runtime errors (KeyError, TypeError,
AttributeError, NameError, UnboundLocalError) surface as PyErr through
Except; rdflib's Graph is a set of triples and the graph field records
the sequence of GRAPH.add calls, which refines the set.
-/

namespace XpoRdf

/-- JSON values as loaded by json.load: strings, arrays and objects;
objects are insertion-ordered association lists, as Python dicts
preserve insertion order. -/
inductive JValue where
  | str : String → JValue
  | list : List JValue → JValue
  | obj : List (String × JValue) → JValue

/-- Graph nodes: URIRef (full URI string) or BNode; a BNode identity is
its role tag together with the value of the injectable generator's
counter at creation time (source line 21-26). -/
inductive Node where
  | uri : String → Node
  | bnode : String → Nat → Node
deriving DecidableEq, Repr

/-- Object position of a triple: a node reference or an rdflib Literal
(Literal accepts an arbitrary Python value, hence JValue). -/
inductive Obj where
  | node : Node → Obj
  | lit : JValue → Obj

/-- A subject-predicate-object triple; predicates are URI strings. -/
structure Triple where
  subj : Node
  pred : String
  obj : Obj

/-- One value per print site of convert_generic. -/
inductive Diag where
  | badPropertyValues (prop : String) (value : JValue)
  | badLdcTypesUnrecognized (node : Node) (prop : String) (vname : String)
  | badLdcTypesNotList (prop : String) (value : JValue)
  | badArgumentsNotList (node : Node) (prop : String) (value : JValue)
  | badRelatedQnodes (node : Node) (prop : String) (value : JValue)
  | unrecognizedList (ty : String) (prop : String) (value : JValue)
  | unrecognizedScalar (ty : String) (prop : String) (value : JValue)

/-- Python runtime errors that the source can raise. -/
inductive PyErr where
  | keyError (k : String)
  | typeError
  | attributeError
  | nameError (n : String)
  | unboundLocal (n : String)
deriving DecidableEq

/-- Namespace of the ontology (xpo), source line 34. -/
def XPO : String := "http://purl.org/xpo/"

/-- Wikidata namespace, source line 40. -/
def WD : String := "http://www.wikidata.org/wiki/"

/-- State threaded through convert_generic: the global GRAPH (sequence
of GRAPH.add calls), the bnode generator counter, the leaked inner-loop
pair (ldc_arg_name, ldc_arg_value) of the ldc_types branch (none while
unassigned), and the diagnostics printed so far. -/
structure St where
  graph : List Triple
  ctr : Nat
  leak : Option (String × JValue)
  diags : List Diag

/-- Initial state: empty GRAPH, generator at zero. -/
def St.init : St := ⟨[], 0, none, []⟩

/-- GRAPH.add. -/
def addT (s : St) (t : Triple) : St := { s with graph := s.graph ++ [t] }

/-- A print call. -/
def addDiag (s : St) (d : Diag) : St := { s with diags := s.diags ++ [d] }

/-- The custom bnode helper (source lines 21-26): returns the fresh
node and the advanced generator state. -/
def bnode (pfx : String) (ctr : Nat) : Node × Nat := (Node.bnode pfx ctr, ctr + 1)

/-- Python d[k] subscription: key lookup on a dict, KeyError when the
key is missing, TypeError on a string or list subscripted by a string. -/
def pyGet (v : JValue) (k : String) : Except PyErr JValue :=
  match v with
  | .obj kvs =>
    match kvs.lookup k with
    | some x => .ok x
    | none => .error (.keyError k)
  | _ => .error .typeError

/-- Python string + value concatenation (URIRef(WD+v) etc.): TypeError
unless the value is a string. -/
def pyStrAdd (a : String) (v : JValue) : Except PyErr String :=
  match v with
  | .str s => .ok (a ++ s)
  | _ => .error .typeError

/-- Python iteration over a value: a list yields its elements, a string
its characters, a dict its keys; all JValues are iterable. -/
def pyIter (v : JValue) : List JValue :=
  match v with
  | .list l => l
  | .str s => s.toList.map (fun c => .str c.toString)
  | .obj kvs => kvs.map (fun kv => .str kv.1)

/-- Python v.items(): AttributeError unless v is a dict. -/
def pyItems (v : JValue) : Except PyErr (List (String × JValue)) :=
  match v with
  | .obj kvs => .ok kvs
  | _ => .error .attributeError

/-- Python membership test k in v: key membership for a dict, substring
for a string, element membership for a list. -/
def pyContains (k : String) (v : JValue) : Bool :=
  match v with
  | .obj kvs => kvs.any (fun kv => kv.1 == k)
  | .str s => k.isEmpty || (s.splitOn k).length > 1
  | .list l => l.any (fun x => match x with | .str s => s == k | _ => false)

/-- Whether a value is a Python list (isinstance(value, list)). -/
def isList : JValue → Bool
  | .list _ => true
  | _ => false

/-- The property names handled as plain string values (source lines
83-85). -/
def stringProps : List String :=
  ["type", "comment", "curated_by", "description", "wd_node", "name",
   "wd_description", "template", "template_curation", "pb_roleset"]

/-- The property names dispatched to a list-of-records handler. -/
def listProps : List String :=
  ["overlay_parents", "similar_nodes", "ldc_types", "arguments", "related_qnodes"]

/-- Loop over overlay_parents elements (source lines 90-95); the binds
sequence the fallible Python subscriptions in evaluation order. -/
def overlayLoop (dwd : String) (node : Node) : List JValue → St → Except PyErr St
  | [], s => .ok s
  | v :: vs, s =>
    let p := bnode "OVERLAY" s.ctr
    let s1 := addT { s with ctr := p.2 } ⟨node, dwd ++ "overlay", .node p.1⟩
    (pyGet v "wd_node").bind fun wdv =>
      (pyStrAdd WD wdv).bind fun wduri =>
        let s2 := addT s1 ⟨p.1, dwd ++ "overlay_parent", .node (Node.uri wduri)⟩
        (pyGet v "name").bind fun nv =>
          overlayLoop dwd node vs (addT s2 ⟨p.1, dwd ++ "overlay_parent_name", .lit nv⟩)

/-- Loop over similar_nodes elements (source lines 100-106). -/
def similarLoop (dwd : String) (node : Node) : List JValue → St → Except PyErr St
  | [], s => .ok s
  | v :: vs, s =>
    let p := bnode "SIMILAR" s.ctr
    let s1 := addT { s with ctr := p.2 } ⟨node, dwd ++ "similarNode", .node p.1⟩
    (pyGet v "wd_node").bind fun wdv =>
      (pyStrAdd WD wdv).bind fun wduri =>
        let s2 := addT s1 ⟨p.1, dwd ++ "wd_node", .node (Node.uri wduri)⟩
        (pyGet v "name").bind fun nv =>
          let s3 := addT s2 ⟨p.1, dwd ++ "name", .lit nv⟩
          (pyGet v "similarity_type").bind fun stv =>
            (pyStrAdd dwd stv).bind fun sturi =>
              similarLoop dwd node vs (addT s3 ⟨p.1, dwd ++ "similarity_type", .node (Node.uri sturi)⟩)

/-- Loop over related_qnodes elements (source lines 155-159). -/
def relatedLoop (dwd : String) (node : Node) : List JValue → St → Except PyErr St
  | [], s => .ok s
  | v :: vs, s =>
    let p := bnode "WDNODE" s.ctr
    let s1 := addT { s with ctr := p.2 } ⟨node, dwd ++ "related_qnode", .node p.1⟩
    (pyGet v "wd_node").bind fun wdv =>
      (pyStrAdd WD wdv).bind fun wduri =>
        let s2 := addT s1 ⟨p.1, dwd ++ "wd_node", .node (Node.uri wduri)⟩
        (pyGet v "name").bind fun nv =>
          relatedLoop dwd node vs (addT s2 ⟨p.1, dwd ++ "name", .lit nv⟩)

/-- Loop over an argument's constraint records (source lines 146-150). -/
def constraintsLoop (dwd : String) (argNode : Node) : List JValue → St → Except PyErr St
  | [], s => .ok s
  | c :: cs, s =>
    let p := bnode "CONSTRAINT" s.ctr
    let s1 := addT { s with ctr := p.2 } ⟨argNode, dwd ++ "constraint", .node p.1⟩
    (pyGet c "name").bind fun nv =>
      let s2 := addT s1 ⟨p.1, dwd ++ "name", .lit nv⟩
      (pyGet c "wd_node").bind fun wdv =>
        (pyStrAdd WD wdv).bind fun wduri =>
          constraintsLoop dwd argNode cs (addT s2 ⟨p.1, dwd ++ "wd_node", .node (Node.uri wduri)⟩)

/-- Loop over arguments elements (source lines 140-150). -/
def argsLoop (dwd : String) (node : Node) : List JValue → St → Except PyErr St
  | [], s => .ok s
  | arg :: rest, s =>
    let p := bnode "ARG" s.ctr
    let s1 := addT { s with ctr := p.2 } ⟨node, dwd ++ "argument", .node p.1⟩
    let step1 : Except PyErr St :=
      if pyContains "name" arg then
        (pyGet arg "name").bind fun nv => .ok (addT s1 ⟨p.1, dwd ++ "name", .lit nv⟩)
      else .ok s1
    step1.bind fun s2 =>
      let step2 : Except PyErr St :=
        if pyContains "short_name" arg then
          (pyGet arg "short_name").bind fun snv =>
            .ok (addT s2 ⟨p.1, dwd ++ "short_name", .lit snv⟩)
        else .ok s2
      step2.bind fun s3 =>
        (pyGet arg "constraints").bind fun cs =>
          (constraintsLoop dwd p.1 (pyIter cs) s3).bind fun s4 =>
            argsLoop dwd node rest s4

/-- Inner loop over one ldc_argument record's items (source lines
127-130); assigning the loop variables updates the leak, and the three
recognized leaf names all emit the predicate ldc_code. -/
def ldcArgItemsLoop (dwd : String) (argNode : Node) : List (String × JValue) → St → St
  | [], s => s
  | (k, v) :: rest, s =>
    let s1 := { s with leak := some (k, v) }
    let s2 :=
      if k == "ldc_name" || k == "ldc_argument_output_value" || k == "dwd_arg_name" then
        addT s1 ⟨argNode, dwd ++ "ldc_code", .lit v⟩
      else s1
    ldcArgItemsLoop dwd argNode rest s2

/-- The check at source lines 131-133, evaluated after the items loop
on the leaked loop variables: reading them while still unassigned is an
UnboundLocalError; when the guard holds and the leaked value iterates
to at least one element, the first execution of the loop body evaluates
the undefined lowercase name graph, a NameError. -/
def ldcContraintsCheck (s : St) : Except PyErr St :=
  match s.leak with
  | none => .error (.unboundLocal "ldc_arg_name")
  | some (k, v) =>
    if k == "ldc_contraints" then
      match pyIter v with
      | [] => .ok s
      | _ :: _ => .error (.nameError "graph")
    else .ok s

/-- Loop over ldc_arguments elements (source lines 124-133). -/
def ldcArgsLoop (dwd : String) (typeNode : Node) : List JValue → St → Except PyErr St
  | [], s => .ok s
  | a :: rest, s =>
    let p := bnode "LDCARG" s.ctr
    let s1 := addT { s with ctr := p.2 } ⟨typeNode, dwd ++ "ldc_argument", .node p.1⟩
    (pyItems a).bind fun items =>
      (ldcContraintsCheck (ldcArgItemsLoop dwd p.1 items s1)).bind fun s3 =>
        ldcArgsLoop dwd typeNode rest s3

/-- Loop over one ldc_types record's items (source lines 115-135). -/
def ldcTypeItemsLoop (dwd : String) (node : Node) (prop : String) (typeNode : Node) :
    List (String × JValue) → St → Except PyErr St
  | [], s => .ok s
  | (vname, vvalue) :: rest, s =>
    let step : Except PyErr St :=
      if vname == "name" then
        .ok (addT s ⟨typeNode, dwd ++ "name", .lit vvalue⟩)
      else if vname == "ldc_code" then
        .ok (addT s ⟨typeNode, dwd ++ "ldc_code", .lit vvalue⟩)
      else if vname == "other_pb_rolesets" then
        .ok ((pyIter vvalue).foldl (fun t pb => addT t ⟨typeNode, dwd ++ "other_pb_roleset", .lit pb⟩) s)
      else if vname == "ldc_arguments" then
        ldcArgsLoop dwd typeNode (pyIter vvalue) s
      else
        .ok (addDiag s (.badLdcTypesUnrecognized node prop vname))
    step.bind fun s1 => ldcTypeItemsLoop dwd node prop typeNode rest s1

/-- Loop over ldc_types elements (source lines 112-135). -/
def ldcTypesLoop (dwd : String) (node : Node) (prop : String) : List JValue → St → Except PyErr St
  | [], s => .ok s
  | v :: rest, s =>
    let p := bnode "LDCTYPE" s.ctr
    let s1 := addT { s with ctr := p.2 } ⟨node, dwd ++ "ldc_type", .node p.1⟩
    (pyItems v).bind fun items =>
      (ldcTypeItemsLoop dwd node prop p.1 items s1).bind fun s2 =>
        ldcTypesLoop dwd node prop rest s2

/-- Per-property dispatch of convert_generic (source lines 83-174). -/
def convertProp (dwd ty : String) (node : Node) (prop : String) (value : JValue)
    (s : St) : Except PyErr St :=
  if stringProps.contains prop then
    .ok (addT s ⟨node, dwd ++ prop, .lit value⟩)
  else if prop == "overlay_parents" then
    match value with
    | .list l => overlayLoop dwd node l s
    | _ => .ok (addDiag s (.badPropertyValues prop value))
  else if prop == "similar_nodes" then
    match value with
    | .list l => similarLoop dwd node l s
    | _ => .ok (addDiag s (.badPropertyValues prop value))
  else if prop == "ldc_types" then
    match value with
    | .list l => ldcTypesLoop dwd node prop l s
    | _ => .ok (addDiag s (.badLdcTypesNotList prop value))
  else if prop == "arguments" then
    match value with
    | .list l => argsLoop dwd node l s
    | _ => .ok (addDiag s (.badArgumentsNotList node prop value))
  else if prop == "related_qnodes" then
    match value with
    | .list l => relatedLoop dwd node l s
    | _ => .ok (addDiag s (.badRelatedQnodes node prop value))
  else
    match value with
    | .list l =>
      let s1 := addDiag s (.unrecognizedList ty prop value)
      .ok (l.foldl (fun t v => addT t ⟨node, dwd ++ prop, .lit v⟩) s1)
    | _ =>
      let s1 := addDiag s (.unrecognizedScalar ty prop value)
      .ok (addT s1 ⟨node, dwd ++ prop, .lit value⟩)

/-- Loop over one record's properties (source line 82). -/
def convertProps (dwd ty : String) (node : Node) :
    List (String × JValue) → St → Except PyErr St
  | [], s => .ok s
  | (prop, value) :: rest, s =>
    (convertProp dwd ty node prop value s).bind fun s1 =>
      convertProps dwd ty node rest s1

/-- Loop over the records of one collection with the count and early
stop (source lines 77-174); count is incremented before the break test,
and the break returns the incremented count. -/
def convertRecords (dwd ty : String) (stop : Nat) :
    List (String × List (String × JValue)) → Nat → St → Except PyErr (Nat × St)
  | [], count, s => .ok (count, s)
  | (key, edges) :: rest, count, s =>
    let count1 := count + 1
    if stop > 0 ∧ count1 > stop then .ok (count1, s)
    else
      (convertProps dwd ty (Node.uri (dwd ++ key)) edges s).bind fun s1 =>
        convertRecords dwd ty stop rest count1 s1

/-- The convert_generic function (source lines 75-175): the leaked loop
variables are function-local, hence unbound at entry; the return value
is count - 1 (an int, -1 on an empty collection). -/
def convert_generic (data : List (String × List (String × JValue)))
    (dwd ty : String) (stop : Nat) (s : St) : Except PyErr (Int × St) :=
  (convertRecords dwd ty stop data 0 { s with leak := none }).bind fun p =>
    .ok ((p.1 : Int) - 1, p.2)

/-! Theorems about the claims. -/

/-- Bind on a success reduces to the continuation. -/
theorem ok_bind {α β : Type} (a : α) (f : α → Except PyErr β) :
    (Except.ok a : Except PyErr α).bind f = f a := rfl

/-- Bind on an error propagates the error. -/
theorem error_bind {α β : Type} (e : PyErr) (f : α → Except PyErr β) :
    (Except.error e : Except PyErr α).bind f = .error e := rfl

/-- C4: for the single record with name "Attack" and one overlay parent
under key E1, convert_generic emits exactly the four triples (E1, name,
literal Attack), (E1, overlay, b) for the fresh synthetic node b,
(b, overlay_parent, reference WD:Q123) and (b, overlay_parent_name,
literal Conflict), in that order, and nothing else. -/
theorem C4_overlay_example_triples :
    convert_generic [("E1", [("name", .str "Attack"),
        ("overlay_parents", .list [.obj [("wd_node", .str "Q123"), ("name", .str "Conflict")]])])]
      XPO "?" 0 St.init =
    .ok (0, ⟨[⟨.uri (XPO ++ "E1"), XPO ++ "name", .lit (.str "Attack")⟩,
              ⟨.uri (XPO ++ "E1"), XPO ++ "overlay", .node (.bnode "OVERLAY" 0)⟩,
              ⟨.bnode "OVERLAY" 0, XPO ++ "overlay_parent", .node (.uri (WD ++ "Q123"))⟩,
              ⟨.bnode "OVERLAY" 0, XPO ++ "overlay_parent_name", .lit (.str "Conflict")⟩],
             1, none, []⟩) := rfl

/-- C1 counterexample: an overlay_parents element lacking the expected
sub-key wd_node makes convert_generic raise a KeyError (the subscript
at source line 94 is unguarded), aborting the conversion instead of
skipping the field, contrary to the claim. -/
theorem C1_claim_counterexample :
    convert_generic [("E1", [("overlay_parents", .list [.obj []])])] XPO "?" 0 St.init =
    .error (.keyError "wd_node") := rfl

/-- C1 amended: a recognized list-valued field whose value has the
wrong top-level shape (a non-list) does not raise: exactly one
diagnostic is printed, no triple is added for the field, and processing
continues with the remaining fields of the record. -/
theorem C1_amended_skip_and_continue (dwd ty : String) (node : Node) (prop : String)
    (value : JValue) (rest : List (String × JValue)) (s : St)
    (hp : prop ∈ listProps) (hv : isList value = false) :
    ∃ d, convertProps dwd ty node ((prop, value) :: rest) s =
      convertProps dwd ty node rest (addDiag s d) := by
  simp only [listProps, List.mem_cons, List.not_mem_nil, or_false] at hp
  rcases hp with rfl | rfl | rfl | rfl | rfl <;>
    cases value with
    | list l => simp [isList] at hv
    | str a => exact ⟨_, rfl⟩
    | obj o => exact ⟨_, rfl⟩

/-- C1 amended witness at a concrete input. -/
theorem C1_amended_witness :
    ∃ d, convertProps XPO "?" (.uri (XPO ++ "E1")) [("overlay_parents", .str "x")] St.init =
      convertProps XPO "?" (.uri (XPO ++ "E1")) [] (addDiag St.init d) :=
  C1_amended_skip_and_continue XPO "?" (.uri (XPO ++ "E1")) "overlay_parents"
    (.str "x") [] St.init (by simp [listProps]) rfl

/-- C3 counterexample: when an ldc_argument element's last iterated
sub-key is the misspelled "ldc_contraints" with a nonempty value, the
guard at source line 131 holds on the leaked loop variable and the
misnamed lowercase graph reference at line 133 is evaluated, raising a
NameError — the branch is not unreachable. -/
theorem C3_claim_counterexample :
    convert_generic [("E1", [("ldc_types", .list [.obj [("ldc_arguments",
        .list [.obj [("ldc_contraints", .list [.str "ent"])]])]])])] XPO "?" 0 St.init =
    .error (.nameError "graph") := rfl

/-- C3 amended: the constraint branch is reachable — whenever the
leaked loop variable pair is ("ldc_contraints", v) after the items
loop, the guard holds: with v empty nothing happens, and with v
nonempty the first execution of the loop body evaluates the undefined
lowercase name graph and raises a NameError; in neither case is an
ldc_constraint triple added. -/
theorem C3_amended_contraints_branch (s : St) (v : JValue)
    (h : s.leak = some ("ldc_contraints", v)) :
    ldcContraintsCheck s =
      (if (pyIter v).isEmpty then .ok s else .error (.nameError "graph")) := by
  simp only [ldcContraintsCheck, h]
  cases hv : pyIter v <;> simp [hv]

/-- C3 amended witness at a concrete state. -/
theorem C3_amended_witness :
    ldcContraintsCheck ⟨[], 0, some ("ldc_contraints", .list [.str "ent"]), []⟩ =
      .error (.nameError "graph") := by
  have h := C3_amended_contraints_branch
    ⟨[], 0, some ("ldc_contraints", .list [.str "ent"]), []⟩ (.list [.str "ent"]) rfl
  simpa [pyIter] using h

/-- C7 counterexample: the record E9 with three empty-list fields —
overlay_parents is recognized and silent, but the empty list under the
recognized string-valued field name is embedded as one literal triple,
and the unrecognized field foo prints one diagnostic (source line 166
prints before the emptiness test), contradicting zero triples and zero
diagnostics. -/
theorem C7_claim_counterexample :
    convert_generic [("E9", [("overlay_parents", .list []), ("name", .list []),
        ("foo", .list [])])] XPO "?" 0 St.init =
    .ok (0, ⟨[⟨.uri (XPO ++ "E9"), XPO ++ "name", .lit (.list [])⟩],
             0, none, [.unrecognizedList "?" "foo" (.list [])]⟩) := rfl

/-- C7 amended: a field whose value is the empty list adds zero triples
and zero diagnostics when the field is one of the five recognized
list-valued properties; a recognized string-valued field embeds the
empty list as a single literal triple; any other field adds zero
triples but prints one diagnostic. -/
theorem C7_amended_empty_list (dwd ty : String) (node : Node) (prop : String) (s : St) :
    convertProp dwd ty node prop (.list []) s =
      .ok (if stringProps.contains prop then addT s ⟨node, dwd ++ prop, .lit (.list [])⟩
           else if prop == "overlay_parents" || prop == "similar_nodes" ||
               prop == "ldc_types" || prop == "arguments" || prop == "related_qnodes" then s
           else addDiag s (.unrecognizedList ty prop (.list []))) := by
  by_cases h1 : stringProps.contains prop = true
  · have h1m : prop ∈ stringProps := by simpa using h1
    simp [convertProp, h1m]
  · by_cases h2 : (prop == "overlay_parents") = true
    · rw [beq_iff_eq] at h2; subst h2; rfl
    · by_cases h3 : (prop == "similar_nodes") = true
      · rw [beq_iff_eq] at h3; subst h3; rfl
      · by_cases h4 : (prop == "ldc_types") = true
        · rw [beq_iff_eq] at h4; subst h4; rfl
        · by_cases h5 : (prop == "arguments") = true
          · rw [beq_iff_eq] at h5; subst h5; rfl
          · by_cases h6 : (prop == "related_qnodes") = true
            · rw [beq_iff_eq] at h6; subst h6; rfl
            · simp only [Bool.not_eq_true] at h1 h2 h3 h4 h5 h6
              have h1m : prop ∉ stringProps := by simpa using h1
              simp [convertProp, h1m, h2, h3, h4, h5, h6]

/-- C2 counterexample: an ldc_types record whose ldc_arguments element
carries the leaf field ldc_name produces exactly three triples, the
leaf edge having the predicate ldc_code under the namespace — no
emitted predicate is built from the field name ldc_name. -/
theorem C2_claim_counterexample :
    convert_generic [("E1", [("ldc_types", .list [.obj [("ldc_arguments",
        .list [.obj [("ldc_name", .str "agent")]])]])])] XPO "?" 0 St.init =
    .ok (0, ⟨[⟨.uri (XPO ++ "E1"), XPO ++ "ldc_type", .node (.bnode "LDCTYPE" 0)⟩,
              ⟨.bnode "LDCTYPE" 0, XPO ++ "ldc_argument", .node (.bnode "LDCARG" 1)⟩,
              ⟨.bnode "LDCARG" 1, XPO ++ "ldc_code", .lit (.str "agent")⟩],
             2, some ("ldc_name", .str "agent"), []⟩) ∧
    ([⟨.uri (XPO ++ "E1"), XPO ++ "ldc_type", .node (.bnode "LDCTYPE" 0)⟩,
      ⟨.bnode "LDCTYPE" 0, XPO ++ "ldc_argument", .node (.bnode "LDCARG" 1)⟩,
      (⟨.bnode "LDCARG" 1, XPO ++ "ldc_code", .lit (.str "agent")⟩ : Triple)].all
        (fun t => t.pred != XPO ++ "ldc_name")) = true :=
  ⟨rfl, by decide⟩

/-- C2 amended: predicates of recognized string-valued fields are built
from the field name under the graph's namespace, but each of the three
LDC-argument leaf fields ldc_name, ldc_argument_output_value and
dwd_arg_name emits an edge whose predicate is ldc_code under the
namespace, not the field's own name. -/
theorem C2_amended_predicates (dwd ty : String) (argNode node : Node)
    (k : String) (v : JValue) (prop : String) (value : JValue) (s : St)
    (hk : k ∈ (["ldc_name", "ldc_argument_output_value", "dwd_arg_name"] : List String))
    (hp : stringProps.contains prop = true) :
    ldcArgItemsLoop dwd argNode [(k, v)] s =
      addT { s with leak := some (k, v) } ⟨argNode, dwd ++ "ldc_code", .lit v⟩ ∧
    convertProp dwd ty node prop value s = .ok (addT s ⟨node, dwd ++ prop, .lit value⟩) := by
  constructor
  · simp only [List.mem_cons, List.not_mem_nil, or_false] at hk
    rcases hk with rfl | rfl | rfl <;> rfl
  · have hpm : prop ∈ stringProps := by simpa using hp
    simp [convertProp, hpm]

/-- C2 amended witness at concrete inputs. -/
theorem C2_amended_witness :
    ldcArgItemsLoop XPO (.bnode "LDCARG" 1) [("ldc_name", .str "agent")] St.init =
      addT { St.init with leak := some ("ldc_name", .str "agent") }
        ⟨.bnode "LDCARG" 1, XPO ++ "ldc_code", .lit (.str "agent")⟩ ∧
    convertProp XPO "?" (.uri (XPO ++ "E1")) "name" (.str "Attack") St.init =
      .ok (addT St.init ⟨.uri (XPO ++ "E1"), XPO ++ "name", .lit (.str "Attack")⟩) :=
  C2_amended_predicates XPO "?" (.bnode "LDCARG" 1) (.uri (XPO ++ "E1"))
    "ldc_name" (.str "agent") "name" (.str "Attack") St.init (by simp) rfl

/-- C5: one step of the similar_nodes loop on an element carrying the
three expected sub-keys creates one fresh synthetic node with exactly
three outgoing edges — the external wd_node identifier reference, the
display-name literal, and the similarity-type edge whose object is the
namespace-qualified identifier reference built from the element's
similarity_type value, not a literal. -/
theorem C5_similar_nodes_step (dwd : String) (node : Node) (v : JValue)
    (vs : List JValue) (s : St) (wv sv : String) (nm : JValue)
    (h1 : pyGet v "wd_node" = .ok (.str wv))
    (h2 : pyGet v "name" = .ok nm)
    (h3 : pyGet v "similarity_type" = .ok (.str sv)) :
    similarLoop dwd node (v :: vs) s =
      similarLoop dwd node vs
        { s with
          ctr := s.ctr + 1,
          graph := s.graph ++
            [⟨node, dwd ++ "similarNode", .node (.bnode "SIMILAR" s.ctr)⟩,
             ⟨.bnode "SIMILAR" s.ctr, dwd ++ "wd_node", .node (.uri (WD ++ wv))⟩,
             ⟨.bnode "SIMILAR" s.ctr, dwd ++ "name", .lit nm⟩,
             ⟨.bnode "SIMILAR" s.ctr, dwd ++ "similarity_type",
               .node (.uri (dwd ++ sv))⟩] } := by
  simp [similarLoop, bnode, h1, h2, h3, pyStrAdd, addT, ok_bind]

/-- C5 witness at a concrete element. -/
theorem C5_similar_nodes_witness :
    similarLoop XPO (.uri (XPO ++ "E2"))
      [.obj [("wd_node", .str "Q9"), ("name", .str "X"), ("similarity_type", .str "exact")]]
      St.init =
    similarLoop XPO (.uri (XPO ++ "E2")) []
      { St.init with
        ctr := 1,
        graph := [⟨.uri (XPO ++ "E2"), XPO ++ "similarNode", .node (.bnode "SIMILAR" 0)⟩,
                  ⟨.bnode "SIMILAR" 0, XPO ++ "wd_node", .node (.uri (WD ++ "Q9"))⟩,
                  ⟨.bnode "SIMILAR" 0, XPO ++ "name", .lit (.str "X")⟩,
                  ⟨.bnode "SIMILAR" 0, XPO ++ "similarity_type",
                    .node (.uri (XPO ++ "exact"))⟩] } := by
  have h := C5_similar_nodes_step XPO (.uri (XPO ++ "E2"))
    (.obj [("wd_node", .str "Q9"), ("name", .str "X"), ("similarity_type", .str "exact")])
    [] St.init "Q9" "exact" (.str "X") rfl rfl rfl
  simpa [St.init] using h

/-- Folding GRAPH.add over a list appends one triple per element. -/
theorem foldl_addT (node : Node) (pr : String) :
    ∀ (l : List JValue) (s : St),
      l.foldl (fun t v => addT t ⟨node, pr, .lit v⟩) s =
        { s with graph := s.graph ++ l.map (fun v => ⟨node, pr, Obj.lit v⟩) }
  | [], s => by simp [addT]
  | x :: xs, s => by
    rw [List.foldl_cons, foldl_addT node pr xs]
    simp [addT]

/-- C6: a field whose name is outside the recognized vocabulary emits
one literal-object edge per element when its value is a list and a
single literal edge when it is a scalar, in both cases together with
one diagnostic, and processing continues with the remaining fields of
the record. -/
theorem C6_fallback_edges (dwd ty : String) (node : Node) (prop : String)
    (value : JValue) (rest : List (String × JValue)) (s : St)
    (h1 : stringProps.contains prop = false) (h2 : listProps.contains prop = false) :
    convertProps dwd ty node ((prop, value) :: rest) s =
      convertProps dwd ty node rest
        (match value with
         | .list l =>
           { s with
             diags := s.diags ++ [.unrecognizedList ty prop value],
             graph := s.graph ++ l.map (fun v => ⟨node, dwd ++ prop, .lit v⟩) }
         | _ =>
           { s with
             diags := s.diags ++ [.unrecognizedScalar ty prop value],
             graph := s.graph ++ [⟨node, dwd ++ prop, .lit value⟩] }) := by
  have h1m : prop ∉ stringProps := by simpa using h1
  simp only [listProps, List.contains_cons, Bool.or_eq_false_iff,
    List.contains_nil, beq_eq_false_iff_ne] at h2
  obtain ⟨n1, n2, n3, n4, n5, -⟩ := h2
  cases value with
  | list l =>
    simp [convertProps, convertProp, h1m, n1, n2, n3, n4, n5, foldl_addT, addDiag, ok_bind]
  | str a =>
    simp [convertProps, convertProp, h1m, n1, n2, n3, n4, n5, addDiag, addT, ok_bind]
  | obj o =>
    simp [convertProps, convertProp, h1m, n1, n2, n3, n4, n5, addDiag, addT, ok_bind]

/-- C6 witness at a concrete unrecognized field. -/
theorem C6_fallback_witness :
    convertProps XPO "?" (.uri (XPO ++ "E3")) [("foo", .str "bar")] St.init =
      convertProps XPO "?" (.uri (XPO ++ "E3")) []
        { St.init with diags := [.unrecognizedScalar "?" "foo" (.str "bar")],
                       graph := [⟨.uri (XPO ++ "E3"), XPO ++ "foo", .lit (.str "bar")⟩] } := by
  have h := C6_fallback_edges XPO "?" (.uri (XPO ++ "E3")) "foo" (.str "bar") [] St.init rfl rfl
  simpa [St.init] using h

/-- With stop = 0 the record loop never breaks and the returned count
is the starting count plus the number of records. -/
theorem convertRecords_stop0_count (dwd ty : String) :
    ∀ (data : List (String × List (String × JValue))) (c : Nat) (s : St) (r : Nat) (s' : St),
      convertRecords dwd ty 0 data c s = .ok (r, s') → r = c + data.length
  | [], c, s, r, s' => by
    intro h
    simp only [convertRecords, Except.ok.injEq, Prod.mk.injEq] at h
    obtain ⟨h1, h2⟩ := h
    simp only [List.length_nil]
    omega
  | (key, edges) :: rest, c, s, r, s' => by
    intro h
    simp only [convertRecords] at h
    rw [if_neg (by omega)] at h
    cases hcp : convertProps dwd ty (Node.uri (dwd ++ key)) edges s with
    | error e => rw [hcp, error_bind] at h; exact absurd h (by simp)
    | ok s1 =>
      rw [hcp, ok_bind] at h
      have := convertRecords_stop0_count dwd ty rest (c + 1) s1 r s' h
      simp [this]
      omega

/-- With stop = k > 0 and more than k - c records remaining, the record
loop behaves like the stop-free loop on the first k - c records, except
that the returned count is one larger (the break happens after the
increment). -/
theorem convertRecords_stop_take (dwd ty : String) (k : Nat) (hk : 0 < k) :
    ∀ (data : List (String × List (String × JValue))) (c : Nat) (s : St),
      c ≤ k → k - c < data.length →
      convertRecords dwd ty k data c s =
        Except.map (fun rs => (rs.1 + 1, rs.2))
          (convertRecords dwd ty 0 (data.take (k - c)) c s)
  | [], c, s => by
    intro hc hl
    simp at hl
  | (key, edges) :: rest, c, s => by
    intro hc hl
    by_cases hck : c = k
    · subst hck
      rw [Nat.sub_self, List.take_zero]
      simp only [convertRecords]
      rw [if_pos ⟨hk, by omega⟩]
      rfl
    · have hck' : c < k := lt_of_le_of_ne hc hck
      have h1 : k - c = (k - (c + 1)) + 1 := by omega
      rw [h1, List.take_succ_cons]
      simp only [convertRecords]
      rw [if_neg (by omega), if_neg (by omega)]
      cases hcp : convertProps dwd ty (Node.uri (dwd ++ key)) edges s with
      | error e => rfl
      | ok s1 =>
        exact convertRecords_stop_take dwd ty k hk rest (c + 1) s1 (by omega)
          (by simp at hl; omega)

/-- C10: on a successful run with stop = 0 the returned value is one
less than the number of records; with stop = k > 0 on a collection of
more than k records, convert_generic behaves exactly like a stop-free
run on the first k records (processing exactly those k records) except
that the returned value is one larger, namely k. -/
theorem C10_stop_semantics (data : List (String × List (String × JValue)))
    (dwd ty : String) (s : St) (k : Nat) (r : Int) (s' : St)
    (hk : 0 < k) (hlen : k < data.length)
    (hrun : convert_generic data dwd ty 0 s = .ok (r, s')) :
    r = (data.length : Int) - 1 ∧
    convert_generic data dwd ty k s =
      Except.map (fun rs => (rs.1 + 1, rs.2)) (convert_generic (data.take k) dwd ty 0 s) := by
  constructor
  · unfold convert_generic at hrun
    cases hcr : convertRecords dwd ty 0 data 0 { s with leak := none } with
    | error e => rw [hcr, error_bind] at hrun; exact absurd hrun (by simp)
    | ok p =>
      rw [hcr, ok_bind] at hrun
      obtain ⟨count, s1⟩ := p
      have hc := convertRecords_stop0_count dwd ty data 0 { s with leak := none } count s1 hcr
      simp at hrun
      omega
  · unfold convert_generic
    have ht := convertRecords_stop_take dwd ty k hk data 0 { s with leak := none }
      (by omega) (by omega)
    rw [Nat.sub_zero] at ht
    rw [ht]
    cases hcr : convertRecords dwd ty 0 (data.take k) 0 { s with leak := none } with
    | error e => rfl
    | ok p =>
      obtain ⟨count, s1⟩ := p
      simp [Except.map, ok_bind]

/-- C10 witness at a concrete two-record collection with k = 1. -/
theorem C10_stop_witness :
    (1 : Int) = (([("A", []), ("B", [])] :
        List (String × List (String × JValue))).length : Int) - 1 ∧
    convert_generic [("A", []), ("B", [])] XPO "?" 1 St.init =
      Except.map (fun rs => (rs.1 + 1, rs.2))
        (convert_generic ([("A", []), ("B", [])].take 1) XPO "?" 0 St.init) :=
  C10_stop_semantics [("A", []), ("B", [])] XPO "?" St.init 1 1 St.init
    (by omega) (by simp) rfl

/-- Reinterpretation of a state against a larger sink: same generator
counter and leaked variables, earlier triples and diagnostics
prepended. -/
def frameSt (g : List Triple) (d : List Diag) (s : St) : St :=
  ⟨g ++ s.graph, s.ctr, s.leak, d ++ s.diags⟩

theorem frameSt_ctr (g : List Triple) (d : List Diag) (s : St) :
    (frameSt g d s).ctr = s.ctr := rfl

theorem frameSt_leak (g : List Triple) (d : List Diag) (s : St) :
    (frameSt g d s).leak = s.leak := rfl

theorem frameSt_update_ctr (g : List Triple) (d : List Diag) (s : St) (c : Nat) :
    (⟨(frameSt g d s).graph, c, (frameSt g d s).leak, (frameSt g d s).diags⟩ : St) =
      frameSt g d ⟨s.graph, c, s.leak, s.diags⟩ := rfl

theorem frameSt_update_leak (g : List Triple) (d : List Diag) (s : St)
    (x : Option (String × JValue)) :
    (⟨(frameSt g d s).graph, (frameSt g d s).ctr, x, (frameSt g d s).diags⟩ : St) =
      frameSt g d ⟨s.graph, s.ctr, x, s.diags⟩ := rfl

theorem addT_frame (g : List Triple) (d : List Diag) (s : St) (t : Triple) :
    addT (frameSt g d s) t = frameSt g d (addT s t) := by
  simp [addT, frameSt]

theorem addDiag_frame (g : List Triple) (d : List Diag) (s : St) (x : Diag) :
    addDiag (frameSt g d s) x = frameSt g d (addDiag s x) := by
  simp [addDiag, frameSt]

theorem foldl_addT_frame (node : Node) (pr : String) (l : List JValue)
    (g : List Triple) (d : List Diag) (s : St) :
    l.foldl (fun t v => addT t ⟨node, pr, .lit v⟩) (frameSt g d s) =
      frameSt g d (l.foldl (fun t v => addT t ⟨node, pr, .lit v⟩) s) := by
  rw [foldl_addT, foldl_addT]
  simp [frameSt, List.append_assoc]

/-- Binding after a pointwise reframed continuation commutes with the
reframing map. -/
theorem bind_frame_congr {α β β' : Type} (x : Except PyErr α) (G : β → β')
    (f : α → Except PyErr β) (f' : α → Except PyErr β')
    (h : ∀ a, f' a = Except.map G (f a)) :
    x.bind f' = Except.map G (x.bind f) := by
  cases x <;> simp [Except.bind, Except.map, h]

/-- Binding a reframed computation with a continuation commuting on
reframed inputs commutes with the reframing map. -/
theorem bindE_frame {α α' β β' : Type} (x : Except PyErr α) (x' : Except PyErr α')
    (F : α → α') (G : β → β') (f : α → Except PyErr β) (f' : α' → Except PyErr β')
    (hx : x' = Except.map F x) (h : ∀ a, f' (F a) = Except.map G (f a)) :
    x'.bind f' = Except.map G (x.bind f) := by
  subst hx
  cases x <;> simp [Except.bind, Except.map, h]

theorem overlayLoop_frame (dwd : String) (node : Node) (g : List Triple) (d : List Diag) :
    ∀ (l : List JValue) (s : St),
      overlayLoop dwd node l (frameSt g d s) =
        Except.map (frameSt g d) (overlayLoop dwd node l s)
  | [], s => rfl
  | v :: vs, s => by
    simp only [overlayLoop, frameSt_ctr]
    refine bind_frame_congr _ _ _ _ fun wdv => ?_
    refine bind_frame_congr _ _ _ _ fun wduri => ?_
    refine bind_frame_congr _ _ _ _ fun nv => ?_
    simp only [frameSt_update_ctr, addT_frame]
    exact overlayLoop_frame dwd node g d vs _

theorem similarLoop_frame (dwd : String) (node : Node) (g : List Triple) (d : List Diag) :
    ∀ (l : List JValue) (s : St),
      similarLoop dwd node l (frameSt g d s) =
        Except.map (frameSt g d) (similarLoop dwd node l s)
  | [], s => rfl
  | v :: vs, s => by
    simp only [similarLoop, frameSt_ctr]
    refine bind_frame_congr _ _ _ _ fun wdv => ?_
    refine bind_frame_congr _ _ _ _ fun wduri => ?_
    refine bind_frame_congr _ _ _ _ fun nv => ?_
    refine bind_frame_congr _ _ _ _ fun stv => ?_
    refine bind_frame_congr _ _ _ _ fun sturi => ?_
    simp only [frameSt_update_ctr, addT_frame]
    exact similarLoop_frame dwd node g d vs _

theorem relatedLoop_frame (dwd : String) (node : Node) (g : List Triple) (d : List Diag) :
    ∀ (l : List JValue) (s : St),
      relatedLoop dwd node l (frameSt g d s) =
        Except.map (frameSt g d) (relatedLoop dwd node l s)
  | [], s => rfl
  | v :: vs, s => by
    simp only [relatedLoop, frameSt_ctr]
    refine bind_frame_congr _ _ _ _ fun wdv => ?_
    refine bind_frame_congr _ _ _ _ fun wduri => ?_
    refine bind_frame_congr _ _ _ _ fun nv => ?_
    simp only [frameSt_update_ctr, addT_frame]
    exact relatedLoop_frame dwd node g d vs _

theorem constraintsLoop_frame (dwd : String) (argNode : Node)
    (g : List Triple) (d : List Diag) :
    ∀ (l : List JValue) (s : St),
      constraintsLoop dwd argNode l (frameSt g d s) =
        Except.map (frameSt g d) (constraintsLoop dwd argNode l s)
  | [], s => rfl
  | c :: cs, s => by
    simp only [constraintsLoop, frameSt_ctr]
    refine bind_frame_congr _ _ _ _ fun nv => ?_
    refine bind_frame_congr _ _ _ _ fun wdv => ?_
    refine bind_frame_congr _ _ _ _ fun wduri => ?_
    simp only [frameSt_update_ctr, addT_frame]
    exact constraintsLoop_frame dwd argNode g d cs _

theorem argsLoop_frame (dwd : String) (node : Node) (g : List Triple) (d : List Diag) :
    ∀ (l : List JValue) (s : St),
      argsLoop dwd node l (frameSt g d s) =
        Except.map (frameSt g d) (argsLoop dwd node l s)
  | [], s => rfl
  | arg :: rest, s => by
    simp only [argsLoop, frameSt_ctr, frameSt_update_ctr, addT_frame]
    refine bindE_frame _ _ (frameSt g d) _ _ _ ?_ fun s2 => ?_
    · by_cases hc1 : pyContains "name" arg = true
      · rw [if_pos hc1, if_pos hc1]
        refine bind_frame_congr _ _ _ _ fun nv => ?_
        rfl
      · rw [if_neg hc1, if_neg hc1]
        rfl
    · refine bindE_frame _ _ (frameSt g d) _ _ _ ?_ fun s3 => ?_
      · by_cases hc2 : pyContains "short_name" arg = true
        · rw [if_pos hc2, if_pos hc2]
          refine bind_frame_congr _ _ _ _ fun snv => ?_
          rw [addT_frame]
          rfl
        · rw [if_neg hc2, if_neg hc2]
          rfl
      · refine bind_frame_congr _ _ _ _ fun cs => ?_
        rw [constraintsLoop_frame]
        refine bindE_frame _ _ (frameSt g d) _ _ _ rfl fun s4 => ?_
        exact argsLoop_frame dwd node g d rest s4

theorem ldcArgItemsLoop_frame (dwd : String) (argNode : Node)
    (g : List Triple) (d : List Diag) :
    ∀ (items : List (String × JValue)) (s : St),
      ldcArgItemsLoop dwd argNode items (frameSt g d s) =
        frameSt g d (ldcArgItemsLoop dwd argNode items s)
  | [], s => rfl
  | (k, v) :: rest, s => by
    simp only [ldcArgItemsLoop, frameSt_update_leak]
    by_cases hk : (k == "ldc_name" || k == "ldc_argument_output_value" ||
        k == "dwd_arg_name") = true
    · rw [if_pos hk, if_pos hk]
      simp only [addT_frame]
      exact ldcArgItemsLoop_frame dwd argNode g d rest _
    · rw [if_neg hk, if_neg hk]
      exact ldcArgItemsLoop_frame dwd argNode g d rest _

theorem ldcContraintsCheck_frame (g : List Triple) (d : List Diag) (s : St) :
    ldcContraintsCheck (frameSt g d s) =
      Except.map (frameSt g d) (ldcContraintsCheck s) := by
  simp only [ldcContraintsCheck, frameSt_leak]
  cases hl : s.leak with
  | none => rfl
  | some kv =>
    obtain ⟨k, v⟩ := kv
    simp only []
    by_cases hk : (k == "ldc_contraints") = true
    · rw [if_pos hk, if_pos hk]
      cases hpv : pyIter v with
      | nil => rfl
      | cons a as => rfl
    · rw [if_neg hk, if_neg hk]
      rfl

theorem ldcArgsLoop_frame (dwd : String) (typeNode : Node)
    (g : List Triple) (d : List Diag) :
    ∀ (l : List JValue) (s : St),
      ldcArgsLoop dwd typeNode l (frameSt g d s) =
        Except.map (frameSt g d) (ldcArgsLoop dwd typeNode l s)
  | [], s => rfl
  | a :: rest, s => by
    simp only [ldcArgsLoop, frameSt_ctr, frameSt_update_ctr, addT_frame]
    refine bind_frame_congr _ _ _ _ fun items => ?_
    rw [ldcArgItemsLoop_frame, ldcContraintsCheck_frame]
    refine bindE_frame _ _ (frameSt g d) _ _ _ rfl fun s3 => ?_
    exact ldcArgsLoop_frame dwd typeNode g d rest s3

theorem ldcTypeItemsLoop_frame (dwd : String) (node : Node) (prop : String)
    (typeNode : Node) (g : List Triple) (d : List Diag) :
    ∀ (items : List (String × JValue)) (s : St),
      ldcTypeItemsLoop dwd node prop typeNode items (frameSt g d s) =
        Except.map (frameSt g d) (ldcTypeItemsLoop dwd node prop typeNode items s)
  | [], s => rfl
  | (vname, vvalue) :: rest, s => by
    simp only [ldcTypeItemsLoop]
    refine bindE_frame _ _ (frameSt g d) _ _ _ ?_ fun s1 => ?_
    · by_cases h1 : (vname == "name") = true
      · rw [if_pos h1, if_pos h1]
        simp only [addT_frame]
        rfl
      · rw [if_neg h1, if_neg h1]
        by_cases h2 : (vname == "ldc_code") = true
        · rw [if_pos h2, if_pos h2]
          simp only [addT_frame]
          rfl
        · rw [if_neg h2, if_neg h2]
          by_cases h3 : (vname == "other_pb_rolesets") = true
          · rw [if_pos h3, if_pos h3]
            simp only [foldl_addT_frame]
            rfl
          · rw [if_neg h3, if_neg h3]
            by_cases h4 : (vname == "ldc_arguments") = true
            · rw [if_pos h4, if_pos h4]
              exact ldcArgsLoop_frame dwd typeNode g d (pyIter vvalue) s
            · rw [if_neg h4, if_neg h4]
              simp only [addDiag_frame]
              rfl
    · exact ldcTypeItemsLoop_frame dwd node prop typeNode g d rest s1

theorem ldcTypesLoop_frame (dwd : String) (node : Node) (prop : String)
    (g : List Triple) (d : List Diag) :
    ∀ (l : List JValue) (s : St),
      ldcTypesLoop dwd node prop l (frameSt g d s) =
        Except.map (frameSt g d) (ldcTypesLoop dwd node prop l s)
  | [], s => rfl
  | v :: rest, s => by
    simp only [ldcTypesLoop, frameSt_ctr, frameSt_update_ctr, addT_frame]
    refine bind_frame_congr _ _ _ _ fun items => ?_
    rw [ldcTypeItemsLoop_frame]
    refine bindE_frame _ _ (frameSt g d) _ _ _ rfl fun s2 => ?_
    exact ldcTypesLoop_frame dwd node prop g d rest s2

theorem convertProp_frame (dwd ty : String) (node : Node) (prop : String)
    (value : JValue) (g : List Triple) (d : List Diag) (s : St) :
    convertProp dwd ty node prop value (frameSt g d s) =
      Except.map (frameSt g d) (convertProp dwd ty node prop value s) := by
  unfold convertProp
  by_cases h1 : stringProps.contains prop = true
  · rw [if_pos h1, if_pos h1]
    simp only [addT_frame]
    rfl
  · rw [if_neg h1, if_neg h1]
    by_cases h2 : (prop == "overlay_parents") = true
    · rw [if_pos h2, if_pos h2]
      cases value with
      | list l => exact overlayLoop_frame dwd node g d l s
      | str a => simp only [addDiag_frame]; rfl
      | obj o => simp only [addDiag_frame]; rfl
    · rw [if_neg h2, if_neg h2]
      by_cases h3 : (prop == "similar_nodes") = true
      · rw [if_pos h3, if_pos h3]
        cases value with
        | list l => exact similarLoop_frame dwd node g d l s
        | str a => simp only [addDiag_frame]; rfl
        | obj o => simp only [addDiag_frame]; rfl
      · rw [if_neg h3, if_neg h3]
        by_cases h4 : (prop == "ldc_types") = true
        · rw [if_pos h4, if_pos h4]
          cases value with
          | list l => exact ldcTypesLoop_frame dwd node prop g d l s
          | str a => simp only [addDiag_frame]; rfl
          | obj o => simp only [addDiag_frame]; rfl
        · rw [if_neg h4, if_neg h4]
          by_cases h5 : (prop == "arguments") = true
          · rw [if_pos h5, if_pos h5]
            cases value with
            | list l => exact argsLoop_frame dwd node g d l s
            | str a => simp only [addDiag_frame]; rfl
            | obj o => simp only [addDiag_frame]; rfl
          · rw [if_neg h5, if_neg h5]
            by_cases h6 : (prop == "related_qnodes") = true
            · rw [if_pos h6, if_pos h6]
              cases value with
              | list l => exact relatedLoop_frame dwd node g d l s
              | str a => simp only [addDiag_frame]; rfl
              | obj o => simp only [addDiag_frame]; rfl
            · rw [if_neg h6, if_neg h6]
              cases value with
              | list l =>
                simp only [addDiag_frame, foldl_addT_frame]
                rfl
              | str a => simp only [addDiag_frame, addT_frame]; rfl
              | obj o => simp only [addDiag_frame, addT_frame]; rfl

theorem convertProps_frame (dwd ty : String) (node : Node)
    (g : List Triple) (d : List Diag) :
    ∀ (edges : List (String × JValue)) (s : St),
      convertProps dwd ty node edges (frameSt g d s) =
        Except.map (frameSt g d) (convertProps dwd ty node edges s)
  | [], s => rfl
  | (prop, value) :: rest, s => by
    simp only [convertProps]
    rw [convertProp_frame]
    refine bindE_frame _ _ (frameSt g d) _ _ _ rfl fun s1 => ?_
    exact convertProps_frame dwd ty node g d rest s1

theorem convertRecords_frame (dwd ty : String) (stop : Nat)
    (g : List Triple) (d : List Diag) :
    ∀ (data : List (String × List (String × JValue))) (c : Nat) (s : St),
      convertRecords dwd ty stop data c (frameSt g d s) =
        Except.map (fun p => (p.1, frameSt g d p.2)) (convertRecords dwd ty stop data c s)
  | [], c, s => rfl
  | (key, edges) :: rest, c, s => by
    simp only [convertRecords]
    by_cases hbr : stop > 0 ∧ c + 1 > stop
    · rw [if_pos hbr, if_pos hbr]
      rfl
    · rw [if_neg hbr, if_neg hbr]
      rw [convertProps_frame]
      refine bindE_frame _ _ (frameSt g d) _ _ _ rfl fun s1 => ?_
      exact convertRecords_frame dwd ty stop g d rest (c + 1) s1

/-- C8: with the synthetic-identifier generator state fixed, the
flattening is a deterministic function of the input and the generator
sequence alone: running convert_generic against any sink (any already
accumulated triples g and diagnostics d) emits exactly the triples,
diagnostics, final counter and return value of the canonical run,
merely appended after the existing sink contents — so two runs on
identical input with the same generator sequence yield identical
emitted triple sets. -/
theorem C8_deterministic_frame (data : List (String × List (String × JValue)))
    (dwd ty : String) (stop : Nat) (g : List Triple) (d : List Diag) (s : St) :
    convert_generic data dwd ty stop (frameSt g d s) =
      Except.map (fun p => (p.1, frameSt g d p.2)) (convert_generic data dwd ty stop s) := by
  unfold convert_generic
  simp only [frameSt_update_leak]
  rw [convertRecords_frame]
  refine bindE_frame _ _ (fun p => (p.1, frameSt g d p.2)) _ _ _ rfl fun p => ?_
  rfl

/-- A triple mentions a node when it is the subject or the object. -/
def mentions (t : Triple) (b : Node) : Prop := t.subj = b ∨ t.obj = Obj.node b

/-- Whether the triple's object is the node b. -/
def hitsObj (b : Node) (t : Triple) : Bool :=
  match t.obj with
  | .node n => n == b
  | .lit _ => false

/-- Number of edges of g entering b. -/
def incoming (g : List Triple) (b : Node) : Nat := (g.filter (hitsObj b)).length

/-- Every synthetic-node index mentioned by the triple is below c. -/
def tBound (c : Nat) (t : Triple) : Prop :=
  (∀ p n, t.subj = Node.bnode p n → n < c) ∧
  (∀ p n, t.obj = Obj.node (Node.bnode p n) → n < c)

/-- The graph invariant: all synthetic indices are below the generator
counter, and every mentioned synthetic node has exactly one incoming
edge. -/
def goodG (g : List Triple) (c : Nat) : Prop :=
  (∀ t ∈ g, tBound c t) ∧
  ∀ p n, (∃ t ∈ g, mentions t (Node.bnode p n)) → incoming g (Node.bnode p n) = 1

/-- A node fit to be a subject: a URIRef, or a synthetic node already
created (mentioned in the graph, index below the counter). -/
def parentOk (b : Node) (g : List Triple) (c : Nat) : Prop :=
  ∀ p n, b = Node.bnode p n → n < c ∧ ∃ t ∈ g, mentions t (Node.bnode p n)

theorem hitsObj_eq_true_iff (b : Node) (t : Triple) :
    hitsObj b t = true ↔ t.obj = Obj.node b := by
  unfold hitsObj
  cases h : t.obj with
  | node n => simp
  | lit v => simp

theorem incoming_append (g1 g2 : List Triple) (b : Node) :
    incoming (g1 ++ g2) b = incoming g1 b + incoming g2 b := by
  simp [incoming, List.filter_append]

theorem incoming_single_of_obj {t : Triple} {b : Node} (h : t.obj = Obj.node b) :
    incoming [t] b = 1 := by
  have hh : hitsObj b t = true := (hitsObj_eq_true_iff b t).mpr h
  simp [incoming, List.filter, hh]

theorem incoming_single_of_ne {t : Triple} {b : Node} (h : ¬ t.obj = Obj.node b) :
    incoming [t] b = 0 := by
  have hh : hitsObj b t = false := by
    rw [← Bool.not_eq_true, hitsObj_eq_true_iff]
    exact h
  simp [incoming, List.filter, hh]

theorem incoming_zero_of_bound {g : List Triple} {c : Nat}
    (hb : ∀ t ∈ g, tBound c t) (p : String) (n : Nat) (hn : c ≤ n) :
    incoming g (Node.bnode p n) = 0 := by
  induction g with
  | nil => rfl
  | cons t rest ih =>
    have h1 : incoming (t :: rest) (Node.bnode p n) =
        incoming [t] (Node.bnode p n) + incoming rest (Node.bnode p n) :=
      incoming_append [t] rest (Node.bnode p n)
    rw [h1, incoming_single_of_ne, ih (fun u hu => hb u (List.mem_cons_of_mem t hu))]
    intro he
    have := (hb t (List.mem_cons_self t rest)).2 p n he
    omega

theorem tBound_mono {c c' : Nat} (h : c ≤ c') {t : Triple} (ht : tBound c t) :
    tBound c' t :=
  ⟨fun p n e => lt_of_lt_of_le (ht.1 p n e) h,
   fun p n e => lt_of_lt_of_le (ht.2 p n e) h⟩

theorem parentOk_uri (u : String) (g : List Triple) (c : Nat) :
    parentOk (Node.uri u) g c := by
  intro p n h
  exact absurd h (by simp)

theorem parentOk_mono {b : Node} {g g' : List Triple} {c c' : Nat}
    (h : parentOk b g c) (hsub : ∀ t ∈ g, t ∈ g') (hc : c ≤ c') :
    parentOk b g' c' := by
  intro p n hb
  obtain ⟨h1, t, ht, hm⟩ := h p n hb
  exact ⟨lt_of_lt_of_le h1 hc, t, hsub t ht, hm⟩

theorem parentOk_append {b : Node} {g : List Triple} {c : Nat} (e : List Triple)
    (h : parentOk b g c) : parentOk b (g ++ e) c :=
  parentOk_mono h (fun _ ht => List.mem_append_left e ht) (le_refl c)

theorem parentOk_fresh {g : List Triple} {c : Nat} (t : Triple) (q : String)
    (hobj : t.obj = Obj.node (Node.bnode q c)) :
    parentOk (Node.bnode q c) (g ++ [t]) (c + 1) := by
  intro p n e
  rw [Node.bnode.injEq] at e
  obtain ⟨rfl, rfl⟩ := e
  exact ⟨Nat.lt_succ_self c, t, by simp, Or.inr hobj⟩

/-- Adding an edge whose object is not synthetic preserves the
invariant when the subject is fit. -/
theorem goodG_add_nonb {g : List Triple} {c : Nat} (t : Triple)
    (hg : goodG g c) (hsub : parentOk t.subj g c)
    (hobj : ∀ p n, ¬ t.obj = Obj.node (Node.bnode p n)) :
    goodG (g ++ [t]) c := by
  constructor
  · intro t' ht'
    rcases List.mem_append.mp ht' with h | h
    · exact hg.1 t' h
    · simp only [List.mem_singleton] at h
      subst h
      exact ⟨fun p n e => (hsub p n e).1, fun p n e => absurd e (hobj p n)⟩
  · intro p n hex
    rw [incoming_append, incoming_single_of_ne (hobj p n), Nat.add_zero]
    obtain ⟨t', ht', hm⟩ := hex
    rcases List.mem_append.mp ht' with h | h
    · exact hg.2 p n ⟨t', h, hm⟩
    · simp only [List.mem_singleton] at h
      subst h
      rcases hm with hs | ho
      · exact hg.2 p n (hsub p n hs).2
      · exact absurd ho (hobj p n)

/-- Adding the incoming edge of a freshly allocated synthetic node
preserves the invariant with the advanced counter. -/
theorem goodG_add_fresh {g : List Triple} {c : Nat} (t : Triple) (q : String)
    (hg : goodG g c) (hsub : parentOk t.subj g c)
    (hobj : t.obj = Obj.node (Node.bnode q c)) :
    goodG (g ++ [t]) (c + 1) := by
  constructor
  · intro t' ht'
    rcases List.mem_append.mp ht' with h | h
    · exact tBound_mono (Nat.le_succ c) (hg.1 t' h)
    · simp only [List.mem_singleton] at h
      subst h
      refine ⟨fun p n e => lt_of_lt_of_le (hsub p n e).1 (Nat.le_succ c), ?_⟩
      intro p n e
      rw [hobj] at e
      simp only [Obj.node.injEq, Node.bnode.injEq] at e
      omega
  · intro p n hex
    rw [incoming_append]
    by_cases hpn : Obj.node (Node.bnode q c) = Obj.node (Node.bnode p n)
    · simp only [Obj.node.injEq, Node.bnode.injEq] at hpn
      obtain ⟨rfl, rfl⟩ := hpn
      rw [incoming_single_of_obj hobj,
        incoming_zero_of_bound hg.1 q c (le_refl c)]
    · rw [incoming_single_of_ne (fun he => hpn (hobj ▸ he ▸ rfl)), Nat.add_zero]
      obtain ⟨t', ht', hm⟩ := hex
      rcases List.mem_append.mp ht' with h | h
      · exact hg.2 p n ⟨t', h, hm⟩
      · simp only [List.mem_singleton] at h
        subst h
        rcases hm with hs | ho
        · exact hg.2 p n (hsub p n hs).2
        · rw [hobj] at ho
          exact absurd ho hpn

/-- Inversion of a successful bind. -/
theorem bind_eq_ok {α β : Type} {x : Except PyErr α} {f : α → Except PyErr β} {b : β}
    (h : x.bind f = .ok b) : ∃ a, x = .ok a ∧ f a = .ok b := by
  cases x with
  | error e => rw [error_bind] at h; exact absurd h (by simp)
  | ok a => exact ⟨a, rfl, h⟩

theorem ext_trans {g1 g2 g3 : List Triple} (h1 : ∃ e, g2 = g1 ++ e)
    (h2 : ∃ e, g3 = g2 ++ e) : ∃ e, g3 = g1 ++ e := by
  obtain ⟨e1, rfl⟩ := h1
  obtain ⟨e2, rfl⟩ := h2
  exact ⟨e1 ++ e2, by simp⟩

/-- Appending literal-object edges from a fit subject preserves the
invariant. -/
theorem goodG_foldl_lits (sub : Node) (pr : String) :
    ∀ (l : List JValue) (g : List Triple) (c : Nat),
      goodG g c → parentOk sub g c →
      goodG (g ++ l.map (fun v => ⟨sub, pr, Obj.lit v⟩)) c ∧
      parentOk sub (g ++ l.map (fun v => ⟨sub, pr, Obj.lit v⟩)) c
  | [], g, c, hg, hp => by simpa using ⟨hg, hp⟩
  | x :: xs, g, c, hg, hp => by
    have hG1 := goodG_add_nonb ⟨sub, pr, Obj.lit x⟩ hg hp (by simp)
    have hrec := goodG_foldl_lits sub pr xs (g ++ [⟨sub, pr, Obj.lit x⟩]) c hG1
      (parentOk_append _ hp)
    simpa [List.append_assoc] using hrec

theorem overlayLoop_good (dwd : String) (node : Node) :
    ∀ (l : List JValue) (s s' : St),
      goodG s.graph s.ctr → parentOk node s.graph s.ctr →
      overlayLoop dwd node l s = .ok s' →
      goodG s'.graph s'.ctr ∧ s.ctr ≤ s'.ctr ∧ ∃ e, s'.graph = s.graph ++ e
  | [], s, s', hg, hp, h => by
    simp only [overlayLoop, Except.ok.injEq] at h
    subst h
    exact ⟨hg, le_refl _, [], by simp⟩
  | v :: vs, s, s', hg, hp, h => by
    simp only [overlayLoop, bnode, addT] at h
    obtain ⟨wdv, hw, h⟩ := bind_eq_ok h
    obtain ⟨wduri, hu, h⟩ := bind_eq_ok h
    obtain ⟨nv, hn, h⟩ := bind_eq_ok h
    have hG1 := goodG_add_fresh ⟨node, dwd ++ "overlay", .node (Node.bnode "OVERLAY" s.ctr)⟩
      "OVERLAY" hg hp rfl
    have hP1 := parentOk_fresh (g := s.graph)
      ⟨node, dwd ++ "overlay", .node (Node.bnode "OVERLAY" s.ctr)⟩ "OVERLAY" rfl
    have hG2 := goodG_add_nonb
      ⟨Node.bnode "OVERLAY" s.ctr, dwd ++ "overlay_parent", .node (.uri wduri)⟩
      hG1 hP1 (by simp)
    have hG3 := goodG_add_nonb
      ⟨Node.bnode "OVERLAY" s.ctr, dwd ++ "overlay_parent_name", .lit nv⟩
      hG2 (parentOk_append _ hP1) (by simp)
    have hPn : parentOk node
        (((s.graph ++ [⟨node, dwd ++ "overlay", .node (Node.bnode "OVERLAY" s.ctr)⟩]) ++
          [⟨Node.bnode "OVERLAY" s.ctr, dwd ++ "overlay_parent", .node (.uri wduri)⟩]) ++
          [⟨Node.bnode "OVERLAY" s.ctr, dwd ++ "overlay_parent_name", .lit nv⟩])
        (s.ctr + 1) :=
      parentOk_mono hp (fun t ht => by simp [ht]) (Nat.le_succ _)
    obtain ⟨hg', hc', e, he⟩ := overlayLoop_good dwd node vs _ s' hG3 hPn h
    simp only [List.append_assoc] at he
    exact ⟨hg', le_trans (Nat.le_succ _) hc', _, he⟩

theorem similarLoop_good (dwd : String) (node : Node) :
    ∀ (l : List JValue) (s s' : St),
      goodG s.graph s.ctr → parentOk node s.graph s.ctr →
      similarLoop dwd node l s = .ok s' →
      goodG s'.graph s'.ctr ∧ s.ctr ≤ s'.ctr ∧ ∃ e, s'.graph = s.graph ++ e
  | [], s, s', hg, hp, h => by
    simp only [similarLoop, Except.ok.injEq] at h
    subst h
    exact ⟨hg, le_refl _, [], by simp⟩
  | v :: vs, s, s', hg, hp, h => by
    simp only [similarLoop, bnode, addT] at h
    obtain ⟨wdv, hw, h⟩ := bind_eq_ok h
    obtain ⟨wduri, hu, h⟩ := bind_eq_ok h
    obtain ⟨nv, hn, h⟩ := bind_eq_ok h
    obtain ⟨stv, hst, h⟩ := bind_eq_ok h
    obtain ⟨sturi, hsu, h⟩ := bind_eq_ok h
    have hG1 := goodG_add_fresh ⟨node, dwd ++ "similarNode", .node (Node.bnode "SIMILAR" s.ctr)⟩
      "SIMILAR" hg hp rfl
    have hP1 := parentOk_fresh (g := s.graph)
      ⟨node, dwd ++ "similarNode", .node (Node.bnode "SIMILAR" s.ctr)⟩ "SIMILAR" rfl
    have hG2 := goodG_add_nonb
      ⟨Node.bnode "SIMILAR" s.ctr, dwd ++ "wd_node", .node (.uri wduri)⟩ hG1 hP1 (by simp)
    have hG3 := goodG_add_nonb
      ⟨Node.bnode "SIMILAR" s.ctr, dwd ++ "name", .lit nv⟩ hG2
      (parentOk_append _ hP1) (by simp)
    have hG4 := goodG_add_nonb
      ⟨Node.bnode "SIMILAR" s.ctr, dwd ++ "similarity_type", .node (.uri sturi)⟩
      hG3 (parentOk_append _ (parentOk_append _ hP1)) (by simp)
    have hPn : parentOk node
        ((((s.graph ++ [⟨node, dwd ++ "similarNode", .node (Node.bnode "SIMILAR" s.ctr)⟩]) ++
          [⟨Node.bnode "SIMILAR" s.ctr, dwd ++ "wd_node", .node (.uri wduri)⟩]) ++
          [⟨Node.bnode "SIMILAR" s.ctr, dwd ++ "name", .lit nv⟩]) ++
          [⟨Node.bnode "SIMILAR" s.ctr, dwd ++ "similarity_type", .node (.uri sturi)⟩])
        (s.ctr + 1) :=
      parentOk_mono hp (fun t ht => by simp [ht]) (Nat.le_succ _)
    obtain ⟨hg', hc', e, he⟩ := similarLoop_good dwd node vs _ s' hG4 hPn h
    simp only [List.append_assoc] at he
    exact ⟨hg', le_trans (Nat.le_succ _) hc', _, he⟩

theorem relatedLoop_good (dwd : String) (node : Node) :
    ∀ (l : List JValue) (s s' : St),
      goodG s.graph s.ctr → parentOk node s.graph s.ctr →
      relatedLoop dwd node l s = .ok s' →
      goodG s'.graph s'.ctr ∧ s.ctr ≤ s'.ctr ∧ ∃ e, s'.graph = s.graph ++ e
  | [], s, s', hg, hp, h => by
    simp only [relatedLoop, Except.ok.injEq] at h
    subst h
    exact ⟨hg, le_refl _, [], by simp⟩
  | v :: vs, s, s', hg, hp, h => by
    simp only [relatedLoop, bnode, addT] at h
    obtain ⟨wdv, hw, h⟩ := bind_eq_ok h
    obtain ⟨wduri, hu, h⟩ := bind_eq_ok h
    obtain ⟨nv, hn, h⟩ := bind_eq_ok h
    have hG1 := goodG_add_fresh ⟨node, dwd ++ "related_qnode", .node (Node.bnode "WDNODE" s.ctr)⟩
      "WDNODE" hg hp rfl
    have hP1 := parentOk_fresh (g := s.graph)
      ⟨node, dwd ++ "related_qnode", .node (Node.bnode "WDNODE" s.ctr)⟩ "WDNODE" rfl
    have hG2 := goodG_add_nonb
      ⟨Node.bnode "WDNODE" s.ctr, dwd ++ "wd_node", .node (.uri wduri)⟩ hG1 hP1 (by simp)
    have hG3 := goodG_add_nonb
      ⟨Node.bnode "WDNODE" s.ctr, dwd ++ "name", .lit nv⟩ hG2
      (parentOk_append _ hP1) (by simp)
    have hPn : parentOk node
        (((s.graph ++ [⟨node, dwd ++ "related_qnode", .node (Node.bnode "WDNODE" s.ctr)⟩]) ++
          [⟨Node.bnode "WDNODE" s.ctr, dwd ++ "wd_node", .node (.uri wduri)⟩]) ++
          [⟨Node.bnode "WDNODE" s.ctr, dwd ++ "name", .lit nv⟩])
        (s.ctr + 1) :=
      parentOk_mono hp (fun t ht => by simp [ht]) (Nat.le_succ _)
    obtain ⟨hg', hc', e, he⟩ := relatedLoop_good dwd node vs _ s' hG3 hPn h
    simp only [List.append_assoc] at he
    exact ⟨hg', le_trans (Nat.le_succ _) hc', _, he⟩

theorem constraintsLoop_good (dwd : String) (argNode : Node) :
    ∀ (l : List JValue) (s s' : St),
      goodG s.graph s.ctr → parentOk argNode s.graph s.ctr →
      constraintsLoop dwd argNode l s = .ok s' →
      goodG s'.graph s'.ctr ∧ s.ctr ≤ s'.ctr ∧ ∃ e, s'.graph = s.graph ++ e
  | [], s, s', hg, hp, h => by
    simp only [constraintsLoop, Except.ok.injEq] at h
    subst h
    exact ⟨hg, le_refl _, [], by simp⟩
  | c :: cs, s, s', hg, hp, h => by
    simp only [constraintsLoop, bnode, addT] at h
    obtain ⟨nv, hn, h⟩ := bind_eq_ok h
    obtain ⟨wdv, hw, h⟩ := bind_eq_ok h
    obtain ⟨wduri, hu, h⟩ := bind_eq_ok h
    have hG1 := goodG_add_fresh
      ⟨argNode, dwd ++ "constraint", .node (Node.bnode "CONSTRAINT" s.ctr)⟩
      "CONSTRAINT" hg hp rfl
    have hP1 := parentOk_fresh (g := s.graph)
      ⟨argNode, dwd ++ "constraint", .node (Node.bnode "CONSTRAINT" s.ctr)⟩ "CONSTRAINT" rfl
    have hG2 := goodG_add_nonb
      ⟨Node.bnode "CONSTRAINT" s.ctr, dwd ++ "name", .lit nv⟩ hG1 hP1 (by simp)
    have hG3 := goodG_add_nonb
      ⟨Node.bnode "CONSTRAINT" s.ctr, dwd ++ "wd_node", .node (.uri wduri)⟩ hG2
      (parentOk_append _ hP1) (by simp)
    have hPn : parentOk argNode
        (((s.graph ++ [⟨argNode, dwd ++ "constraint", .node (Node.bnode "CONSTRAINT" s.ctr)⟩]) ++
          [⟨Node.bnode "CONSTRAINT" s.ctr, dwd ++ "name", .lit nv⟩]) ++
          [⟨Node.bnode "CONSTRAINT" s.ctr, dwd ++ "wd_node", .node (.uri wduri)⟩])
        (s.ctr + 1) :=
      parentOk_mono hp (fun t ht => by simp [ht]) (Nat.le_succ _)
    obtain ⟨hg', hc', e, he⟩ := constraintsLoop_good dwd argNode cs _ s' hG3 hPn h
    simp only [List.append_assoc] at he
    exact ⟨hg', le_trans (Nat.le_succ _) hc', _, he⟩

theorem ext_append1 (g e1 : List Triple) : ∃ e, g ++ e1 = g ++ e := ⟨e1, rfl⟩

theorem ext_append2 (g e1 e2 : List Triple) : ∃ e, (g ++ e1) ++ e2 = g ++ e :=
  ⟨e1 ++ e2, by simp⟩

theorem argsLoop_good (dwd : String) (node : Node) :
    ∀ (l : List JValue) (s s' : St),
      goodG s.graph s.ctr → parentOk node s.graph s.ctr →
      argsLoop dwd node l s = .ok s' →
      goodG s'.graph s'.ctr ∧ s.ctr ≤ s'.ctr ∧ ∃ e, s'.graph = s.graph ++ e
  | [], s, s', hg, hp, h => by
    simp only [argsLoop, Except.ok.injEq] at h
    subst h
    exact ⟨hg, le_refl _, [], by simp⟩
  | arg :: rest, s, s', hg, hp, h => by
    simp only [argsLoop, bnode, addT] at h
    obtain ⟨s2, hstep1, h⟩ := bind_eq_ok h
    obtain ⟨s3, hstep2, h⟩ := bind_eq_ok h
    obtain ⟨cs, hcs, h⟩ := bind_eq_ok h
    obtain ⟨s4, hcl, h⟩ := bind_eq_ok h
    have hG1 := goodG_add_fresh ⟨node, dwd ++ "argument", .node (Node.bnode "ARG" s.ctr)⟩
      "ARG" hg hp rfl
    have hP1 := parentOk_fresh (g := s.graph)
      ⟨node, dwd ++ "argument", .node (Node.bnode "ARG" s.ctr)⟩ "ARG" rfl
    have hfacts2 : goodG s2.graph s2.ctr ∧
        parentOk (Node.bnode "ARG" s.ctr) s2.graph s2.ctr ∧ s2.ctr = s.ctr + 1 ∧
        ∃ e, s2.graph = s.graph ++ e := by
      by_cases hc1 : pyContains "name" arg = true
      · rw [if_pos hc1] at hstep1
        obtain ⟨nv, hnv, hs2⟩ := bind_eq_ok hstep1
        simp only [Except.ok.injEq] at hs2
        subst hs2
        exact ⟨goodG_add_nonb _ hG1 hP1 (by simp), parentOk_append _ hP1, rfl,
          ext_append2 _ _ _⟩
      · rw [if_neg hc1] at hstep1
        simp only [Except.ok.injEq] at hstep1
        subst hstep1
        exact ⟨hG1, hP1, rfl, ext_append1 _ _⟩
    obtain ⟨hg2, hpb2, hc2, hext2⟩ := hfacts2
    have hfacts3 : goodG s3.graph s3.ctr ∧
        parentOk (Node.bnode "ARG" s.ctr) s3.graph s3.ctr ∧ s3.ctr = s2.ctr ∧
        ∃ e, s3.graph = s2.graph ++ e := by
      by_cases hc2' : pyContains "short_name" arg = true
      · rw [if_pos hc2'] at hstep2
        obtain ⟨snv, hsnv, hs3⟩ := bind_eq_ok hstep2
        simp only [Except.ok.injEq] at hs3
        subst hs3
        exact ⟨goodG_add_nonb _ hg2 hpb2 (by simp), parentOk_append _ hpb2, rfl,
          ext_append1 _ _⟩
      · rw [if_neg hc2'] at hstep2
        simp only [Except.ok.injEq] at hstep2
        subst hstep2
        exact ⟨hg2, hpb2, rfl, [], by simp⟩
    obtain ⟨hg3, hpb3, hc3, hext3⟩ := hfacts3
    obtain ⟨hg4, hc4, hext4⟩ :=
      constraintsLoop_good dwd (Node.bnode "ARG" s.ctr) (pyIter cs) s3 s4 hg3 hpb3 hcl
    have hPn4 : parentOk node s4.graph s4.ctr := by
      obtain ⟨e2, he2⟩ := hext2
      obtain ⟨e3, he3⟩ := hext3
      obtain ⟨e4, he4⟩ := hext4
      refine parentOk_mono hp ?_ ?_
      · intro t ht
        rw [he4, he3, he2]
        simp [ht]
      · omega
    obtain ⟨hg', hc', hext'⟩ := argsLoop_good dwd node rest s4 s' hg4 hPn4 h
    refine ⟨hg', by omega, ?_⟩
    exact ext_trans (ext_trans (ext_trans hext2 hext3) hext4) hext'

theorem ldcArgItemsLoop_good (dwd : String) (argNode : Node) :
    ∀ (items : List (String × JValue)) (s : St),
      goodG s.graph s.ctr → parentOk argNode s.graph s.ctr →
      goodG (ldcArgItemsLoop dwd argNode items s).graph
        (ldcArgItemsLoop dwd argNode items s).ctr ∧
      (ldcArgItemsLoop dwd argNode items s).ctr = s.ctr ∧
      ∃ e, (ldcArgItemsLoop dwd argNode items s).graph = s.graph ++ e
  | [], s, hg, hp => ⟨hg, rfl, [], by simp [ldcArgItemsLoop]⟩
  | (k, v) :: rest, s, hg, hp => by
    simp only [ldcArgItemsLoop]
    by_cases hk : (k == "ldc_name" || k == "ldc_argument_output_value" ||
        k == "dwd_arg_name") = true
    · rw [if_pos hk]
      have hG1 : goodG (s.graph ++ [⟨argNode, dwd ++ "ldc_code", Obj.lit v⟩]) s.ctr :=
        goodG_add_nonb _ hg hp (by simp)
      obtain ⟨a, b, c⟩ := ldcArgItemsLoop_good dwd argNode rest
        (addT { s with leak := some (k, v) } ⟨argNode, dwd ++ "ldc_code", .lit v⟩)
        hG1 (parentOk_append _ hp)
      exact ⟨a, b, ext_trans (ext_append1 s.graph [⟨argNode, dwd ++ "ldc_code", Obj.lit v⟩]) c⟩
    · rw [if_neg hk]
      exact ldcArgItemsLoop_good dwd argNode rest { s with leak := some (k, v) } hg hp

theorem ldcContraintsCheck_ok {s s' : St} (h : ldcContraintsCheck s = .ok s') : s' = s := by
  unfold ldcContraintsCheck at h
  cases hl : s.leak with
  | none => rw [hl] at h; exact absurd h (by simp)
  | some kv =>
    rw [hl] at h
    obtain ⟨k, v⟩ := kv
    simp only [] at h
    by_cases hk : (k == "ldc_contraints") = true
    · rw [if_pos hk] at h
      cases hpv : pyIter v with
      | nil => rw [hpv] at h; simp at h; exact h.symm
      | cons a as => rw [hpv] at h; exact absurd h (by simp)
    · rw [if_neg hk] at h
      simp at h
      exact h.symm

theorem ldcArgsLoop_good (dwd : String) (typeNode : Node) :
    ∀ (l : List JValue) (s s' : St),
      goodG s.graph s.ctr → parentOk typeNode s.graph s.ctr →
      ldcArgsLoop dwd typeNode l s = .ok s' →
      goodG s'.graph s'.ctr ∧ s.ctr ≤ s'.ctr ∧ ∃ e, s'.graph = s.graph ++ e
  | [], s, s', hg, hp, h => by
    simp only [ldcArgsLoop, Except.ok.injEq] at h
    subst h
    exact ⟨hg, le_refl _, [], by simp⟩
  | a :: rest, s, s', hg, hp, h => by
    simp only [ldcArgsLoop, bnode, addT] at h
    obtain ⟨items, hit, h⟩ := bind_eq_ok h
    obtain ⟨s3, hchk, h⟩ := bind_eq_ok h
    have hs3 := ldcContraintsCheck_ok hchk
    subst hs3
    have hG1 := goodG_add_fresh
      ⟨typeNode, dwd ++ "ldc_argument", .node (Node.bnode "LDCARG" s.ctr)⟩ "LDCARG" hg hp rfl
    have hP1 := parentOk_fresh (g := s.graph)
      ⟨typeNode, dwd ++ "ldc_argument", .node (Node.bnode "LDCARG" s.ctr)⟩ "LDCARG" rfl
    obtain ⟨hgI, hcI, hextI⟩ := ldcArgItemsLoop_good dwd (Node.bnode "LDCARG" s.ctr) items
      (addT { s with ctr := s.ctr + 1 }
        ⟨typeNode, dwd ++ "ldc_argument", .node (Node.bnode "LDCARG" s.ctr)⟩) hG1 hP1
    have hcI' : (ldcArgItemsLoop dwd (Node.bnode "LDCARG" s.ctr) items
        (addT { s with ctr := s.ctr + 1 }
          ⟨typeNode, dwd ++ "ldc_argument", .node (Node.bnode "LDCARG" s.ctr)⟩)).ctr =
        s.ctr + 1 := hcI
    have hPn : parentOk typeNode
        (ldcArgItemsLoop dwd (Node.bnode "LDCARG" s.ctr) items
          (addT { s with ctr := s.ctr + 1 }
            ⟨typeNode, dwd ++ "ldc_argument", .node (Node.bnode "LDCARG" s.ctr)⟩)).graph
        (ldcArgItemsLoop dwd (Node.bnode "LDCARG" s.ctr) items
          (addT { s with ctr := s.ctr + 1 }
            ⟨typeNode, dwd ++ "ldc_argument", .node (Node.bnode "LDCARG" s.ctr)⟩)).ctr := by
      obtain ⟨e, he⟩ := hextI
      refine parentOk_mono hp ?_ ?_
      · intro t ht
        rw [he]
        simp [addT, ht]
      · omega
    obtain ⟨hg', hc', hext'⟩ := ldcArgsLoop_good dwd typeNode rest _ s' hgI hPn h
    refine ⟨hg', by omega, ?_⟩
    exact ext_trans (ext_trans (ext_append1 _ _) hextI) hext'

theorem ldcTypeItemsLoop_good (dwd : String) (node : Node) (prop : String) (typeNode : Node) :
    ∀ (items : List (String × JValue)) (s s' : St),
      goodG s.graph s.ctr → parentOk typeNode s.graph s.ctr →
      ldcTypeItemsLoop dwd node prop typeNode items s = .ok s' →
      goodG s'.graph s'.ctr ∧ s.ctr ≤ s'.ctr ∧ ∃ e, s'.graph = s.graph ++ e
  | [], s, s', hg, hp, h => by
    simp only [ldcTypeItemsLoop, Except.ok.injEq] at h
    subst h
    exact ⟨hg, le_refl _, [], by simp⟩
  | (vname, vvalue) :: rest, s, s', hg, hp, h => by
    simp only [ldcTypeItemsLoop] at h
    obtain ⟨s1, hstep, h⟩ := bind_eq_ok h
    have hfacts : goodG s1.graph s1.ctr ∧ parentOk typeNode s1.graph s1.ctr ∧
        s.ctr ≤ s1.ctr ∧ ∃ e, s1.graph = s.graph ++ e := by
      by_cases h1 : (vname == "name") = true
      · rw [if_pos h1] at hstep
        simp only [Except.ok.injEq] at hstep
        subst hstep
        exact ⟨goodG_add_nonb _ hg hp (by simp), parentOk_append _ hp, le_refl _,
          ext_append1 _ _⟩
      · rw [if_neg h1] at hstep
        by_cases h2 : (vname == "ldc_code") = true
        · rw [if_pos h2] at hstep
          simp only [Except.ok.injEq] at hstep
          subst hstep
          exact ⟨goodG_add_nonb _ hg hp (by simp), parentOk_append _ hp, le_refl _,
            ext_append1 _ _⟩
        · rw [if_neg h2] at hstep
          by_cases h3 : (vname == "other_pb_rolesets") = true
          · rw [if_pos h3] at hstep
            rw [foldl_addT] at hstep
            simp only [Except.ok.injEq] at hstep
            subst hstep
            obtain ⟨hgf, hpf⟩ := goodG_foldl_lits typeNode (dwd ++ "other_pb_roleset")
              (pyIter vvalue) s.graph s.ctr hg hp
            exact ⟨hgf, hpf, le_refl _, ext_append1 _ _⟩
          · rw [if_neg h3] at hstep
            by_cases h4 : (vname == "ldc_arguments") = true
            · rw [if_pos h4] at hstep
              obtain ⟨hgA, hcA, hextA⟩ :=
                ldcArgsLoop_good dwd typeNode (pyIter vvalue) s s1 hg hp hstep
              have hPA : parentOk typeNode s1.graph s1.ctr := by
                obtain ⟨e, he⟩ := hextA
                exact parentOk_mono hp (fun t ht => by rw [he]; simp [ht]) hcA
              exact ⟨hgA, hPA, hcA, hextA⟩
            · rw [if_neg h4] at hstep
              simp only [Except.ok.injEq] at hstep
              subst hstep
              exact ⟨hg, hp, le_refl _, [], by simp [addDiag]⟩
    obtain ⟨hg1, hp1, hc1, hext1⟩ := hfacts
    obtain ⟨hg', hc', hext'⟩ := ldcTypeItemsLoop_good dwd node prop typeNode rest s1 s' hg1 hp1 h
    exact ⟨hg', le_trans hc1 hc', ext_trans hext1 hext'⟩

theorem ldcTypesLoop_good (dwd : String) (node : Node) (prop : String) :
    ∀ (l : List JValue) (s s' : St),
      goodG s.graph s.ctr → parentOk node s.graph s.ctr →
      ldcTypesLoop dwd node prop l s = .ok s' →
      goodG s'.graph s'.ctr ∧ s.ctr ≤ s'.ctr ∧ ∃ e, s'.graph = s.graph ++ e
  | [], s, s', hg, hp, h => by
    simp only [ldcTypesLoop, Except.ok.injEq] at h
    subst h
    exact ⟨hg, le_refl _, [], by simp⟩
  | v :: rest, s, s', hg, hp, h => by
    simp only [ldcTypesLoop, bnode, addT] at h
    obtain ⟨items, hit, h⟩ := bind_eq_ok h
    obtain ⟨s2, hloop, h⟩ := bind_eq_ok h
    have hG1 := goodG_add_fresh
      ⟨node, dwd ++ "ldc_type", .node (Node.bnode "LDCTYPE" s.ctr)⟩ "LDCTYPE" hg hp rfl
    have hP1 := parentOk_fresh (g := s.graph)
      ⟨node, dwd ++ "ldc_type", .node (Node.bnode "LDCTYPE" s.ctr)⟩ "LDCTYPE" rfl
    obtain ⟨hg2, hc2, hext2⟩ := ldcTypeItemsLoop_good dwd node prop
      (Node.bnode "LDCTYPE" s.ctr) items _ s2 hG1 hP1 hloop
    have hc2' : s.ctr + 1 ≤ s2.ctr := hc2
    have hPn : parentOk node s2.graph s2.ctr := by
      obtain ⟨e, he⟩ := hext2
      refine parentOk_mono hp ?_ ?_
      · intro t ht
        rw [he]
        simp [addT, ht]
      · omega
    obtain ⟨hg', hc', hext'⟩ := ldcTypesLoop_good dwd node prop rest s2 s' hg2 hPn h
    refine ⟨hg', by omega, ?_⟩
    exact ext_trans (ext_trans (ext_append1 _ _) hext2) hext'

theorem convertProp_good (dwd ty : String) (node : Node) (prop : String) (value : JValue)
    (s s' : St) (hg : goodG s.graph s.ctr) (hp : parentOk node s.graph s.ctr)
    (h : convertProp dwd ty node prop value s = .ok s') :
    goodG s'.graph s'.ctr ∧ s.ctr ≤ s'.ctr ∧ ∃ e, s'.graph = s.graph ++ e := by
  unfold convertProp at h
  by_cases h1 : stringProps.contains prop = true
  · rw [if_pos h1] at h
    simp only [Except.ok.injEq] at h
    subst h
    exact ⟨goodG_add_nonb _ hg hp (by simp), le_refl _, ext_append1 _ _⟩
  · rw [if_neg h1] at h
    by_cases h2 : (prop == "overlay_parents") = true
    · rw [if_pos h2] at h
      cases value with
      | list l => exact overlayLoop_good dwd node l s s' hg hp h
      | str a =>
        simp only [Except.ok.injEq] at h
        subst h
        exact ⟨hg, le_refl _, [], by simp [addDiag]⟩
      | obj o =>
        simp only [Except.ok.injEq] at h
        subst h
        exact ⟨hg, le_refl _, [], by simp [addDiag]⟩
    · rw [if_neg h2] at h
      by_cases h3 : (prop == "similar_nodes") = true
      · rw [if_pos h3] at h
        cases value with
        | list l => exact similarLoop_good dwd node l s s' hg hp h
        | str a =>
          simp only [Except.ok.injEq] at h
          subst h
          exact ⟨hg, le_refl _, [], by simp [addDiag]⟩
        | obj o =>
          simp only [Except.ok.injEq] at h
          subst h
          exact ⟨hg, le_refl _, [], by simp [addDiag]⟩
      · rw [if_neg h3] at h
        by_cases h4 : (prop == "ldc_types") = true
        · rw [if_pos h4] at h
          cases value with
          | list l => exact ldcTypesLoop_good dwd node prop l s s' hg hp h
          | str a =>
            simp only [Except.ok.injEq] at h
            subst h
            exact ⟨hg, le_refl _, [], by simp [addDiag]⟩
          | obj o =>
            simp only [Except.ok.injEq] at h
            subst h
            exact ⟨hg, le_refl _, [], by simp [addDiag]⟩
        · rw [if_neg h4] at h
          by_cases h5 : (prop == "arguments") = true
          · rw [if_pos h5] at h
            cases value with
            | list l => exact argsLoop_good dwd node l s s' hg hp h
            | str a =>
              simp only [Except.ok.injEq] at h
              subst h
              exact ⟨hg, le_refl _, [], by simp [addDiag]⟩
            | obj o =>
              simp only [Except.ok.injEq] at h
              subst h
              exact ⟨hg, le_refl _, [], by simp [addDiag]⟩
          · rw [if_neg h5] at h
            by_cases h6 : (prop == "related_qnodes") = true
            · rw [if_pos h6] at h
              cases value with
              | list l => exact relatedLoop_good dwd node l s s' hg hp h
              | str a =>
                simp only [Except.ok.injEq] at h
                subst h
                exact ⟨hg, le_refl _, [], by simp [addDiag]⟩
              | obj o =>
                simp only [Except.ok.injEq] at h
                subst h
                exact ⟨hg, le_refl _, [], by simp [addDiag]⟩
            · rw [if_neg h6] at h
              cases value with
              | list l =>
                simp only [foldl_addT] at h
                simp only [Except.ok.injEq] at h
                subst h
                obtain ⟨hgf, -⟩ := goodG_foldl_lits node (dwd ++ prop) l s.graph s.ctr hg hp
                exact ⟨hgf, le_refl _,
                  l.map (fun v => ⟨node, dwd ++ prop, Obj.lit v⟩), rfl⟩
              | str a =>
                simp only [Except.ok.injEq] at h
                subst h
                exact ⟨goodG_add_nonb _ hg hp (by simp), le_refl _,
                  [⟨node, dwd ++ prop, Obj.lit (.str a)⟩], rfl⟩
              | obj o =>
                simp only [Except.ok.injEq] at h
                subst h
                exact ⟨goodG_add_nonb _ hg hp (by simp), le_refl _,
                  [⟨node, dwd ++ prop, Obj.lit (.obj o)⟩], rfl⟩

theorem convertProps_good (dwd ty : String) (node : Node) :
    ∀ (edges : List (String × JValue)) (s s' : St),
      goodG s.graph s.ctr → parentOk node s.graph s.ctr →
      convertProps dwd ty node edges s = .ok s' →
      goodG s'.graph s'.ctr ∧ s.ctr ≤ s'.ctr ∧ ∃ e, s'.graph = s.graph ++ e
  | [], s, s', hg, hp, h => by
    simp only [convertProps, Except.ok.injEq] at h
    subst h
    exact ⟨hg, le_refl _, [], by simp⟩
  | (prop, value) :: rest, s, s', hg, hp, h => by
    simp only [convertProps] at h
    obtain ⟨s1, hcp, h⟩ := bind_eq_ok h
    obtain ⟨hg1, hc1, hext1⟩ := convertProp_good dwd ty node prop value s s1 hg hp hcp
    have hp1 : parentOk node s1.graph s1.ctr := by
      obtain ⟨e, he⟩ := hext1
      exact parentOk_mono hp (fun t ht => by rw [he]; simp [ht]) hc1
    obtain ⟨hg', hc', hext'⟩ := convertProps_good dwd ty node rest s1 s' hg1 hp1 h
    exact ⟨hg', le_trans hc1 hc', ext_trans hext1 hext'⟩

theorem convertRecords_good (dwd ty : String) (stop : Nat) :
    ∀ (data : List (String × List (String × JValue))) (c : Nat) (s : St) (r : Nat) (s' : St),
      goodG s.graph s.ctr →
      convertRecords dwd ty stop data c s = .ok (r, s') →
      goodG s'.graph s'.ctr
  | [], c, s, r, s', hg, h => by
    simp only [convertRecords, Except.ok.injEq, Prod.mk.injEq] at h
    obtain ⟨-, h2⟩ := h
    exact h2 ▸ hg
  | (key, edges) :: rest, c, s, r, s', hg, h => by
    simp only [convertRecords] at h
    by_cases hbr : stop > 0 ∧ c + 1 > stop
    · rw [if_pos hbr] at h
      simp only [Except.ok.injEq, Prod.mk.injEq] at h
      obtain ⟨-, h2⟩ := h
      exact h2 ▸ hg
    · rw [if_neg hbr] at h
      obtain ⟨s1, hcp, h⟩ := bind_eq_ok h
      obtain ⟨hg1, -, -⟩ := convertProps_good dwd ty (Node.uri (dwd ++ key)) edges s s1 hg
        (parentOk_uri _ _ _) hcp
      exact convertRecords_good dwd ty stop rest (c + 1) s1 r s' hg1 h

/-- C9: in the graph produced by convert_generic from a fresh sink,
every synthetic node appearing in the graph has exactly one incoming
edge, the one added from its parent subject at creation; synthetic
nodes are never reused across list elements, fields or records. -/
theorem C9_unique_incoming (data : List (String × List (String × JValue)))
    (dwd ty : String) (stop : Nat) (r : Int) (s' : St)
    (h : convert_generic data dwd ty stop St.init = .ok (r, s')) :
    ∀ p n, (∃ t ∈ s'.graph, mentions t (Node.bnode p n)) →
      incoming s'.graph (Node.bnode p n) = 1 := by
  unfold convert_generic at h
  obtain ⟨⟨cnt, s1⟩, hrec, hok⟩ := bind_eq_ok h
  simp only [Except.ok.injEq, Prod.mk.injEq] at hok
  obtain ⟨-, h2⟩ := hok
  subst h2
  have hinit : goodG ({ St.init with leak := none } : St).graph
      ({ St.init with leak := none } : St).ctr := by
    constructor
    · intro t ht
      exact absurd ht (List.not_mem_nil t)
    · rintro p n ⟨t, ht, -⟩
      exact absurd ht (List.not_mem_nil t)
  have hfin := convertRecords_good dwd ty stop data 0 _ cnt s1 hinit hrec
  exact fun p n hex => hfin.2 p n hex

/-- C9 witness in the graph of a concrete overlay record. -/
theorem C9_unique_incoming_witness :
    incoming
      [⟨.uri (XPO ++ "E1"), XPO ++ "name", .lit (.str "Attack")⟩,
       ⟨.uri (XPO ++ "E1"), XPO ++ "overlay", .node (.bnode "OVERLAY" 0)⟩,
       ⟨.bnode "OVERLAY" 0, XPO ++ "overlay_parent", .node (.uri (WD ++ "Q123"))⟩,
       ⟨.bnode "OVERLAY" 0, XPO ++ "overlay_parent_name", .lit (.str "Conflict")⟩]
      (Node.bnode "OVERLAY" 0) = 1 := by
  have h := C9_unique_incoming
    [("E1", [("name", .str "Attack"),
      ("overlay_parents", .list [.obj [("wd_node", .str "Q123"), ("name", .str "Conflict")]])])]
    XPO "?" 0 0
    ⟨[⟨.uri (XPO ++ "E1"), XPO ++ "name", .lit (.str "Attack")⟩,
      ⟨.uri (XPO ++ "E1"), XPO ++ "overlay", .node (.bnode "OVERLAY" 0)⟩,
      ⟨.bnode "OVERLAY" 0, XPO ++ "overlay_parent", .node (.uri (WD ++ "Q123"))⟩,
      ⟨.bnode "OVERLAY" 0, XPO ++ "overlay_parent_name", .lit (.str "Conflict")⟩],
     1, none, []⟩
    rfl
  exact h "OVERLAY" 0
    ⟨⟨.uri (XPO ++ "E1"), XPO ++ "overlay", .node (.bnode "OVERLAY" 0)⟩,
     List.mem_cons_of_mem _ (List.mem_cons_self _ _), Or.inr rfl⟩

end XpoRdf
